import Mathlib

/-!
Verification of the `minitrace-macro` instrumentation pipeline
(`src/minitrace-macro/src/trace/{parse,analyze,lower}.rs` and the
`lower/{block,async_trait,signature,lifetime}.rs` submodules) against its
natural-language specification.

The Rust code is shallowly embedded: `syn` syntax nodes become Lean
inductives carrying exactly the components the pipeline inspects, and each
Rust function becomes a Lean function of the same name following the source
line by line.  Spans (`proc_macro2::Span`) carry no semantic content in any
of the functions modelled (they only decorate diagnostics) and are dropped.
-/

deriving instance DecidableEq for Except

/-! ## Option parser (`src/minitrace-macro/src/trace/parse.rs`) -/

/-- `Scope` from `parse.rs`. -/
inductive Scope where
  | Local
  | Threads
  deriving DecidableEq, Repr

/-- A `syn::Lit` restricted to the literal kinds the parser inspects:
`Lit::Bool`, `Lit::Str`, and a representative of every other kind
(`Lit::Int` etc.), which the parser only ever rejects. -/
inductive Lit where
  | str (s : String)
  | bool (b : Bool)
  | other
  deriving DecidableEq, Repr

/-- A `syn::MetaNameValue`: one `key = value` attribute argument. -/
structure MetaNameValue where
  key : String
  value : Lit
  deriving DecidableEq, Repr

/-- The parse-error taxonomy of `Trace::parse`.  Each constructor stands for
one `syn::Error::new(span, msg)` site in `parse.rs`:
`tooManyArguments`    = "Too many arguments. This attribute takes up to two (2) arguments",
`duplicateOption k`   = "`k` provided twice",
`wrongValueType k`    = "`k` value should be a/an ...",
`unknownOption k`     = "unknown option",
`missingRequiredOptions` = "missing both `enter_on_poll` and `name`". -/
inductive ParseError where
  | tooManyArguments
  | duplicateOption (key : String)
  | wrongValueType (key : String)
  | unknownOption (key : String)
  | missingRequiredOptions
  deriving DecidableEq, Repr

/-- The `Trace` struct of `parse.rs`.  `syn::LitBool`/`syn::LitStr` fields
become `Bool`/`String`; `syn::Ident` becomes `String`; the `variables`
`syn::ExprArray` becomes a list of identifier strings. -/
structure Trace where
  default : Bool
  name : String
  validated : Bool
  enter_on_poll : Bool
  scope : Option Scope
  parent : Option String
  recorder : Option String
  recurse : Option Bool
  root : Option Bool
  -- source field `variables` (a reserved token in Lean)
  vars : Option (List String)
  async_trait : Option Bool
  async_fn : Option Bool
  deriving DecidableEq, Repr

/-- `impl Default for Trace` in `parse.rs`. -/
def Trace.defaultTrace : Trace where
  default := true
  name := "__default"
  validated := false
  enter_on_poll := false
  scope := some Scope.Local
  parent := some "__default"
  recorder := some "span"
  recurse := some false
  root := some false
  vars := some []
  async_trait := some false
  async_fn := some false

/-- The loop state of `Trace::parse`: the `enter_on_poll`, `name` and
`name_set` mutable locals. -/
structure LoopSt where
  enterOnPoll : Option Bool
  name : Option String
  nameSet : Bool
  deriving DecidableEq, Repr

/-- One iteration of the `for kv in parsed` loop in `Trace::parse`
(parse.rs lines 132-168). -/
def checkKV (st : LoopSt) (kv : MetaNameValue) : Except ParseError LoopSt :=
  if kv.key = "enter_on_poll" then
    match st.enterOnPoll with
    | some _ => .error (.duplicateOption "enter_on_poll")
    | none =>
      match kv.value with
      | .bool b => .ok { st with enterOnPoll := some b }
      | _ => .error (.wrongValueType "enter_on_poll")
  else if kv.key = "name" then
    -- the source sets `name_set = true` before the duplicate check, but the
    -- error paths discard the loop state, so recording it on the success
    -- path alone is observationally the same
    match st.name with
    | some _ => .error (.duplicateOption "name")
    | none =>
      match kv.value with
      | .str s => .ok { st with nameSet := true, name := some s }
      | _ => .error (.wrongValueType "name")
  else
    .error (.unknownOption kv.key)

/-- The whole option loop of `Trace::parse`, started from a given state. -/
def checkArgsFrom (st : LoopSt) : List MetaNameValue → Except ParseError LoopSt
  | [] => .ok st
  | kv :: rest =>
    match checkKV st kv with
    | .error e => .error e
    | .ok st' => checkArgsFrom st' rest

/-- The option loop from its initial state (`enter_on_poll = None`,
`name = None`, `name_set = false`). -/
def checkArgs (l : List MetaNameValue) : Except ParseError LoopSt :=
  checkArgsFrom ⟨none, none, false⟩ l

/-- The tail of `Trace::parse` (parse.rs lines 170-217): default the name
when `name` was never set, then validate the supported combinations. -/
def finalize (st : LoopSt) : Except ParseError Trace :=
  let name := if st.nameSet then st.name else some "__default"
  match st.enterOnPoll, name with
  | some e, some n =>
    .ok { Trace.defaultTrace with default := false, validated := true, enter_on_poll := e, name := n }
  | none, none => .error .missingRequiredOptions
  | none, some n =>
    .ok { Trace.defaultTrace with default := false, validated := true, name := n }
  | some e, none =>
    .ok { Trace.defaultTrace with default := false, validated := true, enter_on_poll := e, name := "__default" }

/-- `impl syn::parse::Parse for Trace` (parse.rs lines 113-218): the
tokenization into `Punctuated<MetaNameValue, Comma>` is the external
front-end's job; the embedding takes the punctuated list directly. -/
def Trace.parse (l : List MetaNameValue) : Except ParseError Trace :=
  if l.length > 3 then .error .tooManyArguments
  else
    match checkArgs l with
    | .error e => .error e
    | .ok st => finalize st

example :
    Trace.parse [⟨"name", .str "a"⟩, ⟨"enter_on_poll", .bool false⟩] =
      .ok { Trace.defaultTrace with default := false, validated := true, name := "a" } := by
  decide

example :
    Trace.parse [⟨"enter_on_poll", .bool false⟩] =
      .ok { Trace.defaultTrace with default := false, validated := true, name := "__default" } := by
  decide

example :
    Trace.parse [⟨"name", .str "a"⟩, ⟨"name", .str "b"⟩, ⟨"enter_on_poll", .bool false⟩] =
      .error (.duplicateOption "name") := by
  decide

/-! ### Lemmas about the option loop -/

/-- Every error produced inside the option loop is a duplicate-option,
wrong-value-type or unknown-option error. -/
theorem checkKV_ne (st : LoopSt) (kv : MetaNameValue) :
    checkKV st kv ≠ .error .tooManyArguments ∧
    checkKV st kv ≠ .error .missingRequiredOptions := by
  unfold checkKV
  repeat' split
  all_goals simp_all

/-- Errors of the whole loop are exactly the per-option errors. -/
theorem checkArgsFrom_ne :
    ∀ (l : List MetaNameValue) (st : LoopSt),
      checkArgsFrom st l ≠ .error .tooManyArguments ∧
      checkArgsFrom st l ≠ .error .missingRequiredOptions
  | [], st => by simp [checkArgsFrom]
  | kv :: rest, st => by
    unfold checkArgsFrom
    cases hkv : checkKV st kv with
    | error e =>
      have h2 := checkKV_ne st kv
      rw [hkv] at h2
      exact h2
    | ok st2 => exact checkArgsFrom_ne rest st2

/-- The loop invariant of `Trace::parse`: once `name_set` holds, `name` is
populated. -/
theorem checkKV_invariant (st : LoopSt) (kv : MetaNameValue) (st2 : LoopSt)
    (hst : st.nameSet = true → st.name.isSome)
    (h : checkKV st kv = .ok st2) :
    st2.nameSet = true → st2.name.isSome := by
  unfold checkKV at h
  repeat' split at h
  all_goals simp_all
  · cases h
    exact hst
  · cases h
    exact fun _ => rfl

theorem checkArgsFrom_invariant :
    ∀ (l : List MetaNameValue) (st st2 : LoopSt),
      (st.nameSet = true → st.name.isSome) →
      checkArgsFrom st l = .ok st2 →
      (st2.nameSet = true → st2.name.isSome)
  | [], st, st2, hst, h => by
    simp only [checkArgsFrom] at h
    cases h; exact hst
  | kv :: rest, st, st2, hst, h => by
    unfold checkArgsFrom at h
    cases hkv : checkKV st kv with
    | error e2 => rw [hkv] at h; cases h
    | ok st3 =>
      rw [hkv] at h
      exact checkArgsFrom_invariant rest st3 st2 (checkKV_invariant st kv st3 hst hkv) h

/-- Under the loop invariant, the validation tail always succeeds: the
`(None, None)` arm that would return `missingRequiredOptions` is dead,
because a missing `name` has just been defaulted to the sentinel. -/
theorem finalize_isOk (st : LoopSt) (hst : st.nameSet = true → st.name.isSome) :
    ∃ t, finalize st = .ok t := by
  obtain ⟨eop, name, ns⟩ := st
  cases ns with
  | false => cases eop <;> simp [finalize]
  | true =>
    have : name.isSome := hst rfl
    obtain ⟨n, rfl⟩ := Option.isSome_iff_exists.mp this
    cases eop <;> simp [finalize]

/-- If the arity check passes and the loop fails, `Trace::parse` fails with
the loop's error. -/
theorem parse_eq_error (l : List MetaNameValue) (e : ParseError)
    (hl : ¬ 3 < l.length) (hc : checkArgs l = .error e) :
    Trace.parse l = .error e := by
  simp [Trace.parse, hl, hc]

/-- If the arity check and the loop pass, `Trace::parse` is the validation
tail on the loop's final state. -/
theorem parse_eq_ok (l : List MetaNameValue) (st : LoopSt)
    (hl : ¬ 3 < l.length) (hc : checkArgs l = .ok st) :
    Trace.parse l = finalize st := by
  simp [Trace.parse, hl, hc]

/-- Under the shown loop invariant the validation tail does not fail, hence
`Trace::parse` succeeds whenever the arity check and the option loop pass. -/
theorem parse_ok_of_checkArgs_ok (l : List MetaNameValue) (st : LoopSt)
    (hl : ¬ 3 < l.length) (hc : checkArgs l = .ok st) :
    ∃ t, Trace.parse l = .ok t := by
  have hinv : st.nameSet = true → st.name.isSome := by
    refine checkArgsFrom_invariant l ⟨none, none, false⟩ st ?_ ?_
    · intro h; cases h
    · exact hc
  obtain ⟨t, ht⟩ := finalize_isOk st hinv
  refine ⟨t, ?_⟩
  rw [parse_eq_ok l st hl hc]
  exact ht

/-- C1, counterexample: the attribute list
`name = "a", enter_on_poll = true, foo = "x"` contains three named options —
more than the two the claim allows — yet parsing fails with the
unknown-option error, not with `TooManyArguments`. -/
theorem C1_counterexample :
    ([⟨"name", Lit.str "a"⟩, ⟨"enter_on_poll", Lit.bool true⟩, ⟨"foo", Lit.str "x"⟩] :
        List MetaNameValue).length = 3 ∧
    Trace.parse [⟨"name", Lit.str "a"⟩, ⟨"enter_on_poll", Lit.bool true⟩, ⟨"foo", Lit.str "x"⟩] =
      .error (.unknownOption "foo") ∧
    Trace.parse [⟨"name", Lit.str "a"⟩, ⟨"enter_on_poll", Lit.bool true⟩, ⟨"foo", Lit.str "x"⟩] ≠
      .error .tooManyArguments := by
  decide

/-- C1 (amended): `Trace::parse` returns `TooManyArguments` exactly when the
argument list has more than three `key = value` pairs (not more than two);
and any list within that arity whose options pass the per-option checks
(no duplicate, no wrong value type, no unknown option) is accepted. -/
theorem C1_claim (l : List MetaNameValue) :
    ((Trace.parse l = .error .tooManyArguments) ↔ 3 < l.length) ∧
    (∀ st, l.length ≤ 3 → checkArgs l = .ok st → ∃ t, Trace.parse l = .ok t) := by
  constructor
  · constructor
    · intro h
      by_contra hl
      cases hc : checkArgs l with
      | error e =>
        rw [parse_eq_error l e hl hc] at h
        injection h with h2
        subst h2
        have hne := (checkArgsFrom_ne l ⟨none, none, false⟩).1
        unfold checkArgs at hc
        rw [hc] at hne
        exact hne rfl
      | ok st =>
        obtain ⟨t, ht⟩ := parse_ok_of_checkArgs_ok l st hl hc
        rw [ht] at h
        cases h
    · intro hl
      simp [Trace.parse, hl]
  · intro st hl hc
    exact parse_ok_of_checkArgs_ok l st (by omega) hc

/-- C1, witness: a four-pair list is rejected with `TooManyArguments`, and
the single-pair list `name = "a"` (which passes the option loop) parses
successfully. -/
theorem C1_witness :
    (Trace.parse [⟨"a", .other⟩, ⟨"b", .other⟩, ⟨"c", .other⟩, ⟨"d", .other⟩] =
      .error .tooManyArguments) ∧
    (∃ t, Trace.parse [⟨"name", Lit.str "a"⟩] = .ok t) :=
  ⟨(C1_claim [⟨"a", .other⟩, ⟨"b", .other⟩, ⟨"c", .other⟩, ⟨"d", .other⟩]).1.mpr (by decide),
   (C1_claim [⟨"name", Lit.str "a"⟩]).2 ⟨none, some "a", true⟩ (by decide) (by decide)⟩

/-- C2, counterexample: an argument list supplying neither `name` nor
`enter_on_poll` (the empty list) parses successfully with the sentinel
default name — it does not return `missingRequiredOptions`. -/
theorem C2_counterexample :
    Trace.parse [] = .ok { Trace.defaultTrace with default := false, validated := true } ∧
    Trace.parse [] ≠ .error .missingRequiredOptions := by
  constructor
  · decide
  · decide

/-- C2 (amended): `Trace::parse` never returns `missingRequiredOptions`.
When `name` is absent it is defaulted to the sentinel `"__default"` before
the combination check, so the `(None, None)` validation arm is unreachable
and a list supplying neither option silently succeeds with defaults. -/
theorem C2_claim (l : List MetaNameValue) :
    Trace.parse l ≠ .error .missingRequiredOptions := by
  intro h
  by_cases hl : 3 < l.length
  · simp [Trace.parse, hl] at h
  · cases hc : checkArgs l with
    | error e =>
      rw [parse_eq_error l e hl hc] at h
      injection h with h2
      subst h2
      have hne := (checkArgsFrom_ne l ⟨none, none, false⟩).2
      unfold checkArgs at hc
      rw [hc] at hne
      exact hne rfl
    | ok st =>
      obtain ⟨t, ht⟩ := parse_ok_of_checkArgs_ok l st hl hc
      rw [ht] at h
      cases h

/-! ## Syntax-tree model — the `syn` subset the pipeline inspects -/

/-- A `syn::Lifetime`; `ident` omits the leading apostrophe sigil, so the
elided lifetime written with an underscore has `ident = "_"`. -/
structure Lifetime where
  ident : String
  deriving DecidableEq, Repr

/-- The subset of `syn::Type` (together with `syn::GenericArgument`, inlined
as the `ltArg` constructor) that the lifetime resolver traverses:
`path` is `Type::Path` with its generic arguments, `ref` is
`Type::Reference` with its optional lifetime and mutability, `unit` the unit
type, and `implFuture` the `impl Future<Output = out> + ...` return type
constructed by `transform_sig` (with or without the `Send` bound). -/
inductive Ty where
  | path (segs : List String) (args : List Ty)
  | ref (lt : Option Lifetime) (mutab : Bool) (elem : Ty)
  | ltArg (lt : Lifetime)
  | unit
  | implFuture (out : Ty) (send : Bool)

/-- The subset of `syn::Pat` that `transform_sig` inspects: identifier
patterns with their by-reference and mutability binding modes, and
destructuring patterns (represented by `tupleP`) that get replaced by
positional identifiers. -/
inductive Pat where
  | identP (byRef : Bool) (mutab : Bool) (name : String)
  | tupleP (elems : List Pat)
  | wildP

/-- `syn::FnArg`: a receiver (`self`, with `reference = some lt?` when it is
`&self`/`&'a self`) or a typed pattern argument. -/
inductive FnArg where
  | receiver (reference : Option (Option Lifetime)) (mutab : Bool)
  | typed (pat : Pat) (ty : Ty)

/-- `syn::GenericParam`. -/
inductive GenericParam where
  | typeP (ident : String)
  | lifetimeP (lt : Lifetime)
  | constP (ident : String)
  deriving DecidableEq, Repr

/-- A `syn::WherePredicate` as produced or preserved by `transform_sig`:
an outlives bound `T: 'minitrace` on a type parameter, `'a: 'minitrace` on a
lifetime, the `Self` bound (whose marker is `Send`/`Sync` unless the rewrite
is purely local), or a pre-existing predicate of the input signature,
carried through opaquely. -/
inductive WherePred where
  | tyOutlivesTracer (ident : String)
  | ltOutlivesTracer (lt : Lifetime)
  | selfTracer (marker : Option String)
  | preexisting (tag : Nat)
  deriving DecidableEq, Repr

/-- `syn::Signature`, restricted to the components the pipeline reads or
writes: `asyncness`, the identifier, inputs, generic parameters, the where
clause, and the return type (`none` is `ReturnType::Default`). -/
structure Signature where
  asyncness : Bool
  ident : String
  inputs : List FnArg
  generic_params : List GenericParam
  where_clause : List WherePred
  output : Option Ty

mutual
/-- The subset of `syn::Expr` inspected by `get_async_trait_info` and the
function visitor: calls, asynchronous block expressions (`capture` is the
presence of the value-capturing keyword), paths, literals, and a
representative of every other expression kind. -/
inductive Expr where
  | call (func : Expr) (args : List Expr)
  | asyncE (capture : Bool) (body : Block)
  | pathE (segs : List String)
  | litE (s : String)
  | otherE

/-- `syn::Stmt`: local binding, nested item, trailing expression
(`Stmt::Expr`, no semicolon) or expression statement (`Stmt::Semi`). -/
inductive Stmt where
  | localS
  | itemS (item : Item)
  | exprS (e : Expr)
  | semiS (e : Expr)

/-- `syn::Block`. -/
inductive Block where
  | mk (stmts : List Stmt)

/-- `syn::Item`: a function item or a representative of every other kind. -/
inductive Item where
  | fnI (f : ItemFn)
  | otherI

/-- `syn::ItemFn`: outer attributes (as opaque strings), the signature and
the body.  The visibility and other purely lexical components carry no
logic in the pipeline and are dropped. -/
inductive ItemFn where
  | mk (attrs : List String) (sig : Signature) (block : Block)
end

def ItemFn.attrs : ItemFn → List String
  | .mk a _ _ => a

def ItemFn.sig : ItemFn → Signature
  | .mk _ s _ => s

def ItemFn.block : ItemFn → Block
  | .mk _ _ b => b

def Block.stmts : Block → List Stmt
  | .mk s => s

/-! ## Classifier (`src/minitrace-macro/src/trace/analyze.rs`) -/

/-- `TracedItem` from `analyze.rs`: one resolved option set bound to one
function. -/
structure TracedItem where
  name : String
  scope : Scope
  enter_on_poll : Bool
  parent : String
  recorder : String
  recurse : Bool
  root : Bool
  -- source field `variables` (a reserved token in Lean)
  vars : List String
  async_trait : Bool
  async_fn : Bool
  item_fn : ItemFn

/-- `impl Default for TracedItem` in `analyze.rs`: all sentinel values, with
`fn __default() {}` as the function. -/
def TracedItem.defaultItem : TracedItem where
  name := "__default"
  scope := Scope.Local
  enter_on_poll := false
  parent := "__default"
  recorder := "span"
  recurse := false
  root := false
  vars := []
  async_trait := false
  async_fn := false
  item_fn := .mk [] ⟨false, "__default", [], [], [], none⟩ (Block.mk [])

/-- `Model` from `analyze.rs` (the box around `TracedItem` is dropped). -/
inductive Model where
  | attribute (t : Trace)
  | item (ti : TracedItem)

mutual
/-- Functions collected by `FnVisitor`'s traversal of an expression
(`syn::visit`'s default walk restricted to the embedded grammar). -/
def fns_of_expr : Expr → List ItemFn
  | .call f args => fns_of_expr f ++ fns_of_exprs args
  | .asyncE _ b => fns_of_block b
  | .pathE _ => []
  | .litE _ => []
  | .otherE => []

def fns_of_exprs : List Expr → List ItemFn
  | [] => []
  | e :: es => fns_of_expr e ++ fns_of_exprs es

def fns_of_stmt : Stmt → List ItemFn
  | .localS => []
  | .itemS i => fns_of_item i
  | .exprS e => fns_of_expr e
  | .semiS e => fns_of_expr e

def fns_of_stmts : List Stmt → List ItemFn
  | [] => []
  | s :: ss => fns_of_stmt s ++ fns_of_stmts ss

def fns_of_block : Block → List ItemFn
  | .mk stmts => fns_of_stmts stmts

/-- `FnVisitor::visit_item_fn` (analyze.rs lines 595-601): push the function
itself, then delegate to the default walk, which reaches every nested
function item; the collected order is therefore pre-order. -/
def fns_of_item : Item → List ItemFn
  | .fnI (.mk a s b) => ItemFn.mk a s b :: fns_of_block b
  | .otherI => []
end

def fns_of_items : List Item → List ItemFn
  | [] => []
  | i :: is => fns_of_item i ++ fns_of_items is

/-- The per-function body of the `for f in visitor.functions` loop of
`analyze` (analyze.rs lines 238-289): when every optional field of the
`Trace` is populated (as `Trace::parse` guarantees), resolve the sentinel
name to the function's own identifier and bind the options to the function;
otherwise fall back to the default `TracedItem`. -/
def analyzeOne (trace : Trace) (item_fn : ItemFn) : TracedItem :=
  let default_name := item_fn.sig.ident
  match trace.scope, trace.parent, trace.recorder, trace.recurse, trace.root,
      trace.vars, trace.async_trait, trace.async_fn with
  | some scope, some parent, some recorder, some recurse, some root,
      some vars, some async_trait, some async_fn =>
    let span_name := if trace.name = "__default" then default_name else trace.name
    { name := span_name, scope := scope, enter_on_poll := trace.enter_on_poll,
      parent := parent, recorder := recorder, recurse := recurse, root := root,
      vars := vars, async_trait := async_trait, async_fn := async_fn,
      item_fn := item_fn }
  | _, _, _, _, _, _, _, _ => TracedItem.defaultItem

/-- `analyze` (analyze.rs lines 225-291): visit the file, collect every
function item, and emit one `Model::Item` per collected function.  (The
`Models` newtype around the vector is plain language plumbing and is
represented by the list itself.) -/
def analyze (trace : Trace) (file : List Item) : List Model :=
  (fns_of_items file).map fun f => Model.item (analyzeOne trace f)

/-- The `Trace` values reaching `analyze` from `Trace::parse` always carry
every optional field (the parser fills them from `Default`); this predicate
captures that shape. -/
def Trace.isFull (t : Trace) : Prop :=
  t.scope.isSome = true ∧ t.parent.isSome = true ∧ t.recorder.isSome = true ∧
  t.recurse.isSome = true ∧ t.root.isSome = true ∧ t.vars.isSome = true ∧
  t.async_trait.isSome = true ∧ t.async_fn.isSome = true

instance (t : Trace) : Decidable t.isFull := by
  unfold Trace.isFull
  infer_instance

/-- On a fully-populated option set, the classifier binds each collected
function unchanged. -/
theorem analyzeOne_item_fn (trace : Trace) (f : ItemFn) (hfull : trace.isFull) :
    (analyzeOne trace f).item_fn = f := by
  obtain ⟨h1, h2, h3, h4, h5, h6, h7, h8⟩ := hfull
  obtain ⟨v1, e1⟩ := Option.isSome_iff_exists.mp h1
  obtain ⟨v2, e2⟩ := Option.isSome_iff_exists.mp h2
  obtain ⟨v3, e3⟩ := Option.isSome_iff_exists.mp h3
  obtain ⟨v4, e4⟩ := Option.isSome_iff_exists.mp h4
  obtain ⟨v5, e5⟩ := Option.isSome_iff_exists.mp h5
  obtain ⟨v6, e6⟩ := Option.isSome_iff_exists.mp h6
  obtain ⟨v7, e7⟩ := Option.isSome_iff_exists.mp h7
  obtain ⟨v8, e8⟩ := Option.isSome_iff_exists.mp h8
  simp [analyzeOne, e1, e2, e3, e4, e5, e6, e7, e8]

/-- On a fully-populated option set carrying the sentinel name, the
classifier resolves the span name to the function's identifier. -/
theorem analyzeOne_name (trace : Trace) (f : ItemFn) (hfull : trace.isFull)
    (hname : trace.name = "__default") :
    (analyzeOne trace f).name = f.sig.ident := by
  obtain ⟨h1, h2, h3, h4, h5, h6, h7, h8⟩ := hfull
  obtain ⟨v1, e1⟩ := Option.isSome_iff_exists.mp h1
  obtain ⟨v2, e2⟩ := Option.isSome_iff_exists.mp h2
  obtain ⟨v3, e3⟩ := Option.isSome_iff_exists.mp h3
  obtain ⟨v4, e4⟩ := Option.isSome_iff_exists.mp h4
  obtain ⟨v5, e5⟩ := Option.isSome_iff_exists.mp h5
  obtain ⟨v6, e6⟩ := Option.isSome_iff_exists.mp h6
  obtain ⟨v7, e7⟩ := Option.isSome_iff_exists.mp h7
  obtain ⟨v8, e8⟩ := Option.isSome_iff_exists.mp h8
  simp [analyzeOne, e1, e2, e3, e4, e5, e6, e7, e8, hname]

/-- C3: for every function processed with no `name` option supplied (the
option model carries the sentinel `"__default"`), the produced
`TracedItem` has its span name equal to the function's own identifier, and
in particular (for functions not themselves named `"__default"`) never the
sentinel string. -/
theorem C3_claim (trace : Trace) (file : List Item) (ti : TracedItem)
    (hfull : trace.isFull) (hname : trace.name = "__default")
    (hmem : Model.item ti ∈ analyze trace file) :
    ti.name = ti.item_fn.sig.ident ∧
    (ti.item_fn.sig.ident ≠ "__default" → ti.name ≠ "__default") := by
  unfold analyze at hmem
  obtain ⟨f, hf, hgf⟩ := List.mem_map.mp hmem
  have hti : ti = analyzeOne trace f := by
    injection hgf with h
    exact h.symm
  subst hti
  have h1 := analyzeOne_item_fn trace f hfull
  have h2 := analyzeOne_name trace f hfull hname
  constructor
  · rw [h1, h2]
  · intro hne
    rw [h1] at hne
    rw [h2]
    exact hne

/-- An example function `fn f(x: bool) {}` used to instantiate the claims. -/
def exampleFn : ItemFn :=
  .mk [] ⟨false, "f", [.typed (.identP false false "x") (.path ["bool"] [])], [], [], none⟩
    (Block.mk [])

/-- C3, witness: analyzing `fn f(x: bool) {}` with the default (sentinel)
options yields the span name `"f"`, the function's own identifier. -/
theorem C3_witness :
    (analyzeOne Trace.defaultTrace exampleFn).name =
      (analyzeOne Trace.defaultTrace exampleFn).item_fn.sig.ident ∧
    (analyzeOne Trace.defaultTrace exampleFn).name ≠ "__default" := by
  have h := C3_claim Trace.defaultTrace [Item.fnI exampleFn]
    (analyzeOne Trace.defaultTrace exampleFn) (by decide) rfl
    (List.Mem.head _)
  exact ⟨h.1, h.2 (by decide)⟩

/-- The function bound into a produced model (the default item for the
`Model::Attribute` variant, which `analyze` never emits). -/
def Model.itemFn : Model → ItemFn
  | .item ti => ti.item_fn
  | .attribute _ => TracedItem.defaultItem.item_fn

/-- C10: on a fully-populated option set, `analyze` produces exactly one
model per function item of the input — the outer function plus every nested
one, in the pre-order of the visitor — and the list of bound functions does
not depend on the `recurse` option, which the traversal never consults. -/
theorem C10_claim (trace : Trace) (file : List Item) (hfull : trace.isFull) :
    (analyze trace file).map Model.itemFn = fns_of_items file ∧
    (analyze trace file).length = (fns_of_items file).length ∧
    (∀ r : Bool, (analyze { trace with recurse := some r } file).map Model.itemFn =
      (analyze trace file).map Model.itemFn) := by
  have key : ∀ (t : Trace), t.isFull → (analyze t file).map Model.itemFn = fns_of_items file := by
    intro t ht
    unfold analyze
    rw [List.map_map]
    have : ∀ fns : List ItemFn,
        fns.map ((fun m => Model.itemFn m) ∘ fun f => Model.item (analyzeOne t f)) = fns := by
      intro fns
      induction fns with
      | nil => rfl
      | cons f fs ih =>
        simp only [List.map_cons, ih, Function.comp]
        rw [show Model.itemFn (Model.item (analyzeOne t f)) = (analyzeOne t f).item_fn from rfl]
        rw [analyzeOne_item_fn t f ht]
    exact this (fns_of_items file)
  refine ⟨key trace hfull, ?_, ?_⟩
  · have := key trace hfull
    have hlen := congrArg List.length this
    simpa using hlen
  · intro r
    have hfull2 : ({ trace with recurse := some r } : Trace).isFull := by
      obtain ⟨h1, h2, h3, h4, h5, h6, h7, h8⟩ := hfull
      exact ⟨h1, h2, h3, rfl, h5, h6, h7, h8⟩
    rw [key _ hfull2, key trace hfull]

/-- A function with two nested functions, to instantiate C10:
`fn f(x: bool) { fn g() {} fn h() {} }`. -/
def exampleNestedFn : ItemFn :=
  .mk [] ⟨false, "f", [], [], [], none⟩
    (Block.mk
      [Stmt.itemS (.fnI (.mk [] ⟨false, "g", [], [], [], none⟩ (Block.mk []))),
       Stmt.itemS (.fnI (.mk [] ⟨false, "h", [], [], [], none⟩ (Block.mk [])))])

/-- C10, witness: analyzing the outer function containing two nested
functions produces three models, bound in pre-order to `f`, `g`, `h`,
independently of the `recurse` flag. -/
theorem C10_witness :
    (analyze Trace.defaultTrace [Item.fnI exampleNestedFn]).map Model.itemFn =
      fns_of_items [Item.fnI exampleNestedFn] ∧
    (analyze Trace.defaultTrace [Item.fnI exampleNestedFn]).length = 3 ∧
    (analyze { Trace.defaultTrace with recurse := some true }
        [Item.fnI exampleNestedFn]).map Model.itemFn =
      (analyze Trace.defaultTrace [Item.fnI exampleNestedFn]).map Model.itemFn := by
  have h := C10_claim Trace.defaultTrace [Item.fnI exampleNestedFn] (by decide)
  refine ⟨h.1, ?_, h.2.2 true⟩
  rw [h.2.1]
  rfl

/-! ## Async-desugaring detector
(`src/minitrace-macro/src/trace/lower/async_trait.rs`) -/

/-- `path_to_string` (async_trait.rs lines 249-260): join the path segments
with `::`. -/
def path_to_string (segs : List String) : String :=
  String.intercalate "::" segs

/-- `str::ends_with` on strings.  (Core's `String.endsWith` is defined by
well-founded recursion on byte positions and does not reduce inside the
kernel; this structurally recursive equivalent — suffix comparison of the
character lists — is used so that concrete instances evaluate.) -/
def ends_with (s post : String) : Bool :=
  post.data.isSuffixOf s.data

/-- `AsyncTraitKind` (async_trait.rs lines 28-33): the legacy form carries
the nested function, the current form the asynchronous block's body. -/
inductive AsyncTraitKind where
  | function (f : ItemFn)
  | async (body : Block)

/-- `AsyncTraitInfo` (async_trait.rs lines 63-67). -/
structure AsyncTraitInfo where
  source_stmt : Stmt
  kind : AsyncTraitKind

/-- `get_async_trait_info` (async_trait.rs lines 122-210). -/
def get_async_trait_info (block : Block) (block_is_async : Bool) :
    Option AsyncTraitInfo :=
  -- in an async context this is not an async_trait-like pattern
  if block_is_async then none
  else
    -- async functions declared inside the block
    let inside_funs : List (Stmt × ItemFn) := block.stmts.filterMap fun stmt =>
      match stmt with
      | .itemS (.fnI f) => if f.sig.asyncness then some (stmt, f) else none
      | _ => none
    -- last expression of the block
    match block.stmts.reverse.findSome? (fun stmt =>
        match stmt with
        | .exprS e => some (stmt, e)
        | _ => none) with
    | none => none
    | some (last_expr_stmt, last_expr) =>
      -- is the last expression a function call?
      match last_expr with
      | .call func args =>
        match func with
        | .pathE segs =>
          -- is it a call to `Box::pin()`?
          if ends_with (path_to_string segs) "Box::pin" then
            -- does the call take an argument?
            match args with
            | [] => none
            | arg0 :: _ =>
              match arg0 with
              -- an async block that captures its arguments?
              | .asyncE capture body =>
                if capture then some ⟨last_expr_stmt, .async body⟩
                else none
              -- or a function call itself?
              | .call func2 _ =>
                match func2 with
                | .pathE segs2 =>
                  match inside_funs.find?
                      (fun p => p.2.sig.ident == path_to_string segs2) with
                  | some (decl_stmt, f) => some ⟨decl_stmt, .function f⟩
                  | none => none
                | _ => none
              | _ => none
          else none
        | _ => none
      | _ => none

/-- C4: a synchronous function body whose trailing expression calls a path
ending in `Box::pin` with a value-capturing asynchronous block as first
argument is detected as the desugared-async form, with that block's body as
the inner body; the same shape with a non-capturing asynchronous block is
not matched. -/
theorem C4_claim (pre : List Stmt) (segs : List String) (mv : Bool)
    (body : Block) (rest : List Expr)
    (hpin : ends_with (path_to_string segs) "Box::pin" = true) :
    (mv = true →
      get_async_trait_info
        (Block.mk (pre ++ [Stmt.exprS (Expr.call (.pathE segs) (.asyncE mv body :: rest))]))
        false =
      some ⟨Stmt.exprS (Expr.call (.pathE segs) (.asyncE mv body :: rest)), .async body⟩) ∧
    (mv = false →
      get_async_trait_info
        (Block.mk (pre ++ [Stmt.exprS (Expr.call (.pathE segs) (.asyncE mv body :: rest))]))
        false = none) := by
  constructor <;> intro hmv <;> subst hmv <;>
    simp [get_async_trait_info, Block.stmts, hpin]

/-- C4, witness: the concrete body `{ Box::pin(async move {}) }` is detected
with the empty block as inner body, and `{ Box::pin(async {}) }` is not. -/
theorem C4_witness :
    get_async_trait_info
      (Block.mk [Stmt.exprS (Expr.call (.pathE ["Box", "pin"]) [.asyncE true (Block.mk [])])])
      false =
      some ⟨Stmt.exprS (Expr.call (.pathE ["Box", "pin"]) [.asyncE true (Block.mk [])]),
        .async (Block.mk [])⟩ ∧
    get_async_trait_info
      (Block.mk [Stmt.exprS (Expr.call (.pathE ["Box", "pin"]) [.asyncE false (Block.mk [])])])
      false = none :=
  ⟨(C4_claim [] ["Box", "pin"] true (Block.mk []) [] (by decide)).1 rfl,
   (C4_claim [] ["Box", "pin"] false (Block.mk []) [] (by decide)).2 rfl⟩

/-! ## Body instrumenter (`src/minitrace-macro/src/trace/lower/block.rs`) -/

/-- The token streams `gen_block` can emit: `exprTok e` is an emitted
expression (the async wrappers); `guardTok event body` is the sync form
`let __guard = minitrace::local::LocalSpan::enter_with_local_parent(event);`
followed by the original body. -/
inductive GenTokens where
  | exprTok (e : Expr)
  | guardTok (event : String) (body : Block)

/-- Emitted tokens together with the diagnostics attached to them. -/
structure GenResult where
  tokens : GenTokens
  errors : List String

/-- Modelled from the spec: `token_stream_with_error` is defined in the
crate root (`lib.rs`, not present under `src/`) and is specified as
producing a diagnostic failure while still emitting a best-effort body so
downstream tooling can continue (spec section 4.6 and section 7); it is
modelled as attaching the diagnostic message to the emitted tokens. -/
def token_stream_with_error (tokens : GenTokens) (err : String) : GenResult :=
  ⟨tokens, [err]⟩

/-- `gen_block` (block.rs lines 46-90). -/
def gen_block (block : Block) (async_context : Bool) (traced_item : TracedItem) :
    GenResult :=
  let event := traced_item.name
  if async_context then
    if traced_item.enter_on_poll then
      ⟨.exprTok (.call (.pathE ["minitrace", "future", "FutureExt", "enter_on_poll"])
        [.asyncE true block, .litE event]), []⟩
    else
      ⟨.exprTok (.call (.pathE ["minitrace", "future", "FutureExt", "in_span"])
        [.asyncE true block,
         .call (.pathE ["minitrace", "Span", "enter_with_local_parent"]) [.litE event]]), []⟩
  else
    if traced_item.enter_on_poll then
      token_stream_with_error (.guardTok event block)
        "`enter_on_poll` can not be applied on non-async function"
    else
      ⟨.guardTok event block, []⟩

/-- C6: instrumenting a non-asynchronous body with `enter_on_poll = true`
produces exactly one diagnostic (the enter-on-poll-on-sync failure) while
still emitting the best-effort guarded body. -/
theorem C6_claim (block : Block) (ti : TracedItem) (h : ti.enter_on_poll = true) :
    gen_block block false ti =
      ⟨.guardTok ti.name block,
        ["`enter_on_poll` can not be applied on non-async function"]⟩ ∧
    (gen_block block false ti).errors.length = 1 := by
  simp [gen_block, h, token_stream_with_error]

/-- C6, witness: the failure instantiated on `fn f(x: bool) {}` with
`enter_on_poll = true`. -/
theorem C6_witness :
    gen_block (Block.mk []) false { TracedItem.defaultItem with name := "f", enter_on_poll := true } =
      ⟨.guardTok "f" (Block.mk []),
        ["`enter_on_poll` can not be applied on non-async function"]⟩ :=
  (C6_claim (Block.mk []) { TracedItem.defaultItem with name := "f", enter_on_poll := true } rfl).1

/-- C7: an asynchronous body is wrapped in a value-capturing asynchronous
block; with `enter_on_poll = false` the emitted wrapper is
`FutureExt::in_span(async move { body }, Span::enter_with_local_parent(name))`
(the span is taken from the ambient thread-local parent at construction),
and with `enter_on_poll = true` it is
`FutureExt::enter_on_poll(async move { body }, name)` (re-entered per poll);
both use the resolved span name of the `TracedItem`, and neither attaches a
diagnostic. -/
theorem C7_claim (block : Block) (ti : TracedItem) :
    (ti.enter_on_poll = false →
      gen_block block true ti =
        ⟨.exprTok (.call (.pathE ["minitrace", "future", "FutureExt", "in_span"])
          [.asyncE true block,
           .call (.pathE ["minitrace", "Span", "enter_with_local_parent"]) [.litE ti.name]]),
         []⟩) ∧
    (ti.enter_on_poll = true →
      gen_block block true ti =
        ⟨.exprTok (.call (.pathE ["minitrace", "future", "FutureExt", "enter_on_poll"])
          [.asyncE true block, .litE ti.name]), []⟩) := by
  constructor <;> intro h <;> simp [gen_block, h]

/-- C7, witness: both async wrappers instantiated at span name `"f"` on an
empty body. -/
theorem C7_witness :
    gen_block (Block.mk []) true { TracedItem.defaultItem with name := "f" } =
      ⟨.exprTok (.call (.pathE ["minitrace", "future", "FutureExt", "in_span"])
        [.asyncE true (Block.mk []),
         .call (.pathE ["minitrace", "Span", "enter_with_local_parent"]) [.litE "f"]]), []⟩ ∧
    gen_block (Block.mk []) true
        { TracedItem.defaultItem with name := "f", enter_on_poll := true } =
      ⟨.exprTok (.call (.pathE ["minitrace", "future", "FutureExt", "enter_on_poll"])
        [.asyncE true (Block.mk []), .litE "f"]), []⟩ :=
  ⟨(C7_claim (Block.mk []) { TracedItem.defaultItem with name := "f" }).1 rfl,
   (C7_claim (Block.mk [])
     { TracedItem.defaultItem with name := "f", enter_on_poll := true }).2 rfl⟩

/-! ## Lifetime resolver (`src/minitrace-macro/src/trace/lower/lifetime.rs`) -/

/-- `CollectLifetimes` (lifetime.rs lines 35-40).  The `name` field is the
constant prefix of minted lifetimes — always `'life`, from the only
construction site (signature.rs line 48) — and `default_span` carries no
logic; both are dropped from the state. -/
structure CollectLifetimes where
  elided : List Lifetime
  explicit : List Lifetime
  deriving DecidableEq, Repr

/-- `CollectLifetimes::new` (lifetime.rs lines 73-80). -/
def CollectLifetimes.new : CollectLifetimes := ⟨[], []⟩

/-- The identifier of the `n`-th minted lifetime: `life0`, `life1`, …
(`format!("{}{}", self.name, self.elided.len())` with the apostrophe sigil
stripped, as in `syn::Lifetime`'s `ident`). -/
def mint_name (n : Nat) : Lifetime := ⟨"life" ++ toString n⟩

/-- The expected shape of the `elided` list after any number of mints. -/
def mint_names (n : Nat) : List Lifetime := (List.range n).map mint_name

/-- `next_lifetime` (lifetime.rs lines 195-201): mint a fresh lifetime named
after the current mint count and record it as elided. -/
def next_lifetime (st : CollectLifetimes) : Lifetime × CollectLifetimes :=
  let life := mint_name st.elided.length
  (life, { st with elided := st.elided ++ [life] })

/-- `visit_lifetime` (lifetime.rs lines 155-161): replace the underscore
lifetime by a minted one, record any other as explicit. -/
def visit_lifetime (st : CollectLifetimes) (l : Lifetime) :
    CollectLifetimes × Lifetime :=
  if l.ident = "_" then
    let p := next_lifetime st
    (p.2, p.1)
  else
    ({ st with explicit := st.explicit ++ [l] }, l)

/-- `visit_opt_lifetime` (lifetime.rs lines 115-120): a missing lifetime is
minted, a present one is visited. -/
def visit_opt_lifetime (st : CollectLifetimes) :
    Option Lifetime → CollectLifetimes × Option Lifetime
  | none =>
    let p := next_lifetime st
    (p.2, some p.1)
  | some l =>
    let p := visit_lifetime st l
    (p.1, some p.2)

mutual
/-- The action of the `VisitMut` impl (lifetime.rs lines 204-318) on a type:
`visit_type_reference_mut` visits the reference's optional lifetime then
recurses into the referent; `visit_generic_argument_mut` visits lifetime
arguments; the default walk recurses through path generic arguments and
through the future type's output. -/
def visit_type (st : CollectLifetimes) : Ty → CollectLifetimes × Ty
  | .path segs args =>
    let p := visit_type_list st args
    (p.1, .path segs p.2)
  | .ref lt m elem =>
    let p := visit_opt_lifetime st lt
    let q := visit_type p.1 elem
    (q.1, .ref p.2 m q.2)
  | .ltArg l =>
    let p := visit_lifetime st l
    (p.1, .ltArg p.2)
  | .unit => (st, .unit)
  | .implFuture out send =>
    let p := visit_type st out
    (p.1, .implFuture p.2 send)

def visit_type_list (st : CollectLifetimes) : List Ty → CollectLifetimes × List Ty
  | [] => (st, [])
  | t :: ts =>
    let p := visit_type st t
    let q := visit_type_list p.1 ts
    (q.1, p.2 :: q.2)
end

/-- `visit_receiver_mut` (lifetime.rs lines 236-240) together with the
dispatch of the collection loop in `transform_sig` (signature.rs lines
49-54): the receiver's reference lifetime is visited when present; typed
arguments are visited through their type. -/
def visit_fn_arg (st : CollectLifetimes) : FnArg → CollectLifetimes × FnArg
  | .receiver none m => (st, .receiver none m)
  | .receiver (some lt) m =>
    let p := visit_opt_lifetime st lt
    (p.1, .receiver (some p.2) m)
  | .typed pat ty =>
    let p := visit_type st ty
    (p.1, .typed pat p.2)

/-- The whole collection loop of `transform_sig` over the inputs. -/
def collect_inputs (st : CollectLifetimes) :
    List FnArg → CollectLifetimes × List FnArg
  | [] => (st, [])
  | a :: rest =>
    let p := visit_fn_arg st a
    let q := collect_inputs p.1 rest
    (q.1, p.2 :: q.2)

/-! ### Resolvedness -/

/-- A lifetime is resolved when it is not the elided underscore. -/
def lt_resolved (l : Lifetime) : Bool :=
  if l.ident = "_" then false else true

mutual
/-- No elided reference lifetime (missing or underscore) anywhere in the
type. -/
def ty_resolved : Ty → Bool
  | .path _ args => tys_resolved args
  | .ref none _ _ => false
  | .ref (some l) _ elem => lt_resolved l && ty_resolved elem
  | .ltArg l => lt_resolved l
  | .unit => true
  | .implFuture out _ => ty_resolved out

def tys_resolved : List Ty → Bool
  | [] => true
  | t :: ts => ty_resolved t && tys_resolved ts
end

def arg_resolved : FnArg → Bool
  | .receiver none _ => true
  | .receiver (some none) _ => false
  | .receiver (some (some l)) _ => lt_resolved l
  | .typed _ ty => ty_resolved ty

def inputs_resolved : List FnArg → Bool
  | [] => true
  | a :: rest => arg_resolved a && inputs_resolved rest

/-! ### Lemmas about the resolver -/

theorem mint_name_resolved (n : Nat) : lt_resolved (mint_name n) = true := by
  unfold lt_resolved mint_name
  rw [if_neg]
  intro h
  have hlen := congrArg String.length h
  rw [String.length_append] at hlen
  have h4 : ("life" : String).length = 4 := rfl
  have h1 : ("_" : String).length = 1 := rfl
  rw [h4, h1] at hlen
  omega

theorem mint_names_length (n : Nat) : (mint_names n).length = n := by
  simp [mint_names]

theorem mint_names_succ (n : Nat) :
    mint_names (n + 1) = mint_names n ++ [mint_name n] := by
  simp [mint_names, List.range_succ]

theorem next_lifetime_spec (st : CollectLifetimes) (n : Nat)
    (h : st.elided = mint_names n) :
    (next_lifetime st).1 = mint_name n ∧
    (next_lifetime st).2.elided = mint_names (n + 1) := by
  have hl : st.elided.length = n := by rw [h, mint_names_length]
  constructor
  · simp [next_lifetime, hl]
  · simp [next_lifetime, hl, h, mint_names_succ, mint_names_length]

theorem visit_lifetime_spec (st : CollectLifetimes) (l : Lifetime) (n : Nat)
    (h : st.elided = mint_names n) :
    (∃ m, (visit_lifetime st l).1.elided = mint_names m) ∧
    lt_resolved (visit_lifetime st l).2 = true := by
  by_cases hc : l.ident = "_"
  · have hn := next_lifetime_spec st n h
    constructor
    · refine ⟨n + 1, ?_⟩
      simp [visit_lifetime, hc, hn.2]
    · simp [visit_lifetime, hc, hn.1, mint_name_resolved]
  · constructor
    · refine ⟨n, ?_⟩
      simp [visit_lifetime, hc]
      exact h
    · simp [visit_lifetime, hc, lt_resolved]

/-- Resolvedness of an optional (reference) lifetime. -/
def opt_lt_resolved : Option Lifetime → Bool
  | none => false
  | some l => lt_resolved l

theorem visit_opt_lifetime_spec (st : CollectLifetimes) (lt : Option Lifetime)
    (n : Nat) (h : st.elided = mint_names n) :
    (∃ m, (visit_opt_lifetime st lt).1.elided = mint_names m) ∧
    opt_lt_resolved (visit_opt_lifetime st lt).2 = true := by
  cases lt with
  | none =>
    have hn := next_lifetime_spec st n h
    constructor
    · refine ⟨n + 1, ?_⟩
      simp [visit_opt_lifetime, hn.2]
    · simp [visit_opt_lifetime, opt_lt_resolved, hn.1, mint_name_resolved]
  | some l =>
    have hv := visit_lifetime_spec st l n h
    constructor
    · obtain ⟨m, hm⟩ := hv.1
      refine ⟨m, ?_⟩
      simpa [visit_opt_lifetime] using hm
    · simpa [visit_opt_lifetime, opt_lt_resolved] using hv.2

mutual
theorem visit_type_spec : ∀ (st : CollectLifetimes) (t : Ty) (n : Nat),
    st.elided = mint_names n →
    (∃ m, (visit_type st t).1.elided = mint_names m) ∧
    ty_resolved (visit_type st t).2 = true
  | st, .path segs args, n, h => by
    have hl := visit_type_list_spec st args n h
    constructor
    · obtain ⟨m, hm⟩ := hl.1
      exact ⟨m, by simpa [visit_type] using hm⟩
    · simpa [visit_type, ty_resolved] using hl.2
  | st, .ref lt m elem, n, h => by
    have h1 := visit_opt_lifetime_spec st lt n h
    obtain ⟨n1, e1⟩ := h1.1
    have h2 := visit_type_spec (visit_opt_lifetime st lt).1 elem n1 e1
    constructor
    · obtain ⟨m2, hm2⟩ := h2.1
      exact ⟨m2, by simpa [visit_type] using hm2⟩
    · have hres1 := h1.2
      cases hlt2 : (visit_opt_lifetime st lt).2 with
      | none => rw [hlt2] at hres1; simp [opt_lt_resolved] at hres1
      | some l2 =>
        rw [hlt2] at hres1
        simp only [opt_lt_resolved] at hres1
        simp [visit_type, hlt2, ty_resolved, hres1, h2.2]
  | st, .ltArg l, n, h => by
    have hv := visit_lifetime_spec st l n h
    constructor
    · obtain ⟨m, hm⟩ := hv.1
      exact ⟨m, by simpa [visit_type] using hm⟩
    · simpa [visit_type, ty_resolved] using hv.2
  | st, .unit, n, h => by
    exact ⟨⟨n, by simpa [visit_type] using h⟩, by simp [visit_type, ty_resolved]⟩
  | st, .implFuture out send, n, h => by
    have ho := visit_type_spec st out n h
    constructor
    · obtain ⟨m, hm⟩ := ho.1
      exact ⟨m, by simpa [visit_type] using hm⟩
    · simpa [visit_type, ty_resolved] using ho.2

theorem visit_type_list_spec : ∀ (st : CollectLifetimes) (ts : List Ty) (n : Nat),
    st.elided = mint_names n →
    (∃ m, (visit_type_list st ts).1.elided = mint_names m) ∧
    tys_resolved (visit_type_list st ts).2 = true
  | st, [], n, h => by
    exact ⟨⟨n, by simpa [visit_type_list] using h⟩, by simp [visit_type_list, tys_resolved]⟩
  | st, t :: ts, n, h => by
    have h1 := visit_type_spec st t n h
    obtain ⟨n1, e1⟩ := h1.1
    have h2 := visit_type_list_spec (visit_type st t).1 ts n1 e1
    constructor
    · obtain ⟨m, hm⟩ := h2.1
      exact ⟨m, by simpa [visit_type_list] using hm⟩
    · simp [visit_type_list, tys_resolved, h1.2, h2.2]
end

theorem visit_fn_arg_spec (st : CollectLifetimes) (a : FnArg) (n : Nat)
    (h : st.elided = mint_names n) :
    (∃ m, (visit_fn_arg st a).1.elided = mint_names m) ∧
    arg_resolved (visit_fn_arg st a).2 = true := by
  cases a with
  | receiver r m =>
    cases r with
    | none => exact ⟨⟨n, by simpa [visit_fn_arg] using h⟩, by simp [visit_fn_arg, arg_resolved]⟩
    | some lt =>
      have hv := visit_opt_lifetime_spec st lt n h
      constructor
      · obtain ⟨m1, hm⟩ := hv.1
        exact ⟨m1, by simpa [visit_fn_arg] using hm⟩
      · have hres := hv.2
        cases hlt2 : (visit_opt_lifetime st lt).2 with
        | none => rw [hlt2] at hres; simp [opt_lt_resolved] at hres
        | some l2 =>
          rw [hlt2] at hres
          simp only [opt_lt_resolved] at hres
          simp [visit_fn_arg, hlt2, arg_resolved, hres]
  | typed pat ty =>
    have hv := visit_type_spec st ty n h
    constructor
    · obtain ⟨m1, hm⟩ := hv.1
      exact ⟨m1, by simpa [visit_fn_arg] using hm⟩
    · simpa [visit_fn_arg, arg_resolved] using hv.2

theorem collect_inputs_spec :
    ∀ (inputs : List FnArg) (st : CollectLifetimes) (n : Nat),
      st.elided = mint_names n →
      (∃ m, (collect_inputs st inputs).1.elided = mint_names m) ∧
      inputs_resolved (collect_inputs st inputs).2 = true
  | [], st, n, h => by
    exact ⟨⟨n, by simpa [collect_inputs] using h⟩, by simp [collect_inputs, inputs_resolved]⟩
  | a :: rest, st, n, h => by
    have h1 := visit_fn_arg_spec st a n h
    obtain ⟨n1, e1⟩ := h1.1
    have h2 := collect_inputs_spec rest (visit_fn_arg st a).1 n1 e1
    constructor
    · obtain ⟨m, hm⟩ := h2.1
      exact ⟨m, by simpa [collect_inputs] using hm⟩
    · simp [collect_inputs, inputs_resolved, h1.2, h2.2]

/-! ### Identity of the resolver on resolved input (idempotence) -/

theorem visit_lifetime_id (st : CollectLifetimes) (l : Lifetime)
    (h : lt_resolved l = true) :
    (visit_lifetime st l).2 = l ∧ (visit_lifetime st l).1.elided = st.elided := by
  have hc : ¬ l.ident = "_" := by
    intro hcc
    simp [lt_resolved, hcc] at h
  simp [visit_lifetime, hc]

theorem visit_opt_lifetime_id (st : CollectLifetimes) (lt : Option Lifetime)
    (h : opt_lt_resolved lt = true) :
    (visit_opt_lifetime st lt).2 = lt ∧
    (visit_opt_lifetime st lt).1.elided = st.elided := by
  cases lt with
  | none => simp [opt_lt_resolved] at h
  | some l =>
    have hv := visit_lifetime_id st l (by simpa [opt_lt_resolved] using h)
    constructor
    · simp [visit_opt_lifetime, hv.1]
    · simpa [visit_opt_lifetime] using hv.2

mutual
theorem visit_type_id : ∀ (st : CollectLifetimes) (t : Ty),
    ty_resolved t = true →
    (visit_type st t).2 = t ∧ (visit_type st t).1.elided = st.elided
  | st, .path segs args, h => by
    have hl := visit_type_list_id st args (by simpa [ty_resolved] using h)
    constructor
    · simp [visit_type, hl.1]
    · simpa [visit_type] using hl.2
  | st, .ref lt m elem, h => by
    cases lt with
    | none => simp [ty_resolved] at h
    | some l =>
      simp only [ty_resolved, Bool.and_eq_true] at h
      have h1 := visit_opt_lifetime_id st (some l) (by simpa [opt_lt_resolved] using h.1)
      have h2 := visit_type_id (visit_opt_lifetime st (some l)).1 elem h.2
      constructor
      · simp [visit_type, h1.1, h2.1]
      · simp [visit_type, h2.2, h1.2]
  | st, .ltArg l, h => by
    have hv := visit_lifetime_id st l (by simpa [ty_resolved] using h)
    constructor
    · simp [visit_type, hv.1]
    · simpa [visit_type] using hv.2
  | st, .unit, _ => by
    exact ⟨by simp [visit_type], by simp [visit_type]⟩
  | st, .implFuture out send, h => by
    have ho := visit_type_id st out (by simpa [ty_resolved] using h)
    constructor
    · simp [visit_type, ho.1]
    · simpa [visit_type] using ho.2

theorem visit_type_list_id : ∀ (st : CollectLifetimes) (ts : List Ty),
    tys_resolved ts = true →
    (visit_type_list st ts).2 = ts ∧ (visit_type_list st ts).1.elided = st.elided
  | st, [], _ => by
    exact ⟨by simp [visit_type_list], by simp [visit_type_list]⟩
  | st, t :: ts, h => by
    simp only [tys_resolved, Bool.and_eq_true] at h
    have h1 := visit_type_id st t h.1
    have h2 := visit_type_list_id (visit_type st t).1 ts h.2
    constructor
    · simp [visit_type_list, h1.1, h2.1]
    · simp [visit_type_list, h2.2, h1.2]
end

theorem visit_fn_arg_id (st : CollectLifetimes) (a : FnArg)
    (h : arg_resolved a = true) :
    (visit_fn_arg st a).2 = a ∧ (visit_fn_arg st a).1.elided = st.elided := by
  cases a with
  | receiver r m =>
    cases r with
    | none => simp [visit_fn_arg]
    | some lt =>
      cases lt with
      | none => simp [arg_resolved] at h
      | some l =>
        have hv := visit_opt_lifetime_id st (some l)
          (by simpa [opt_lt_resolved, arg_resolved] using h)
        constructor
        · simp [visit_fn_arg, hv.1]
        · simpa [visit_fn_arg] using hv.2
  | typed pat ty =>
    have hv := visit_type_id st ty (by simpa [arg_resolved] using h)
    constructor
    · simp [visit_fn_arg, hv.1]
    · simpa [visit_fn_arg] using hv.2

theorem collect_inputs_id :
    ∀ (inputs : List FnArg) (st : CollectLifetimes),
      inputs_resolved inputs = true →
      (collect_inputs st inputs).2 = inputs ∧
      (collect_inputs st inputs).1.elided = st.elided
  | [], st, _ => by
    exact ⟨by simp [collect_inputs], by simp [collect_inputs]⟩
  | a :: rest, st, h => by
    simp only [inputs_resolved, Bool.and_eq_true] at h
    have h1 := visit_fn_arg_id st a h.1
    have h2 := collect_inputs_id rest (visit_fn_arg st a).1 h.2
    constructor
    · simp [collect_inputs, h1.1, h2.1]
    · simp [collect_inputs, h2.2, h1.2]

/-- C9: the lifetime resolver is idempotent — on inputs already containing
no elided reference lifetime, running the collection pass leaves every
input unchanged (hence the signature's set of explicit lifetimes is
unchanged) and mints zero new lifetimes. -/
theorem C9_claim (inputs : List FnArg) (h : inputs_resolved inputs = true) :
    (collect_inputs CollectLifetimes.new inputs).2 = inputs ∧
    (collect_inputs CollectLifetimes.new inputs).1.elided = [] := by
  have hid := collect_inputs_id inputs CollectLifetimes.new h
  exact ⟨hid.1, by simpa [CollectLifetimes.new] using hid.2⟩

/-- C9, witness: a resolved signature fragment —
`(&'a u8, x: Vec<&'life0 u8>, &'life1 self)` — passes through the resolver
unchanged with zero mints. -/
theorem C9_witness :
    (collect_inputs CollectLifetimes.new
      [FnArg.receiver (some (some ⟨"life1"⟩)) false,
       FnArg.typed (.identP false false "x")
         (.ref (some ⟨"a"⟩) false (.path ["u8"] [])),
       FnArg.typed (.identP false false "v")
         (.path ["Vec"] [.ref (some ⟨"life0"⟩) false (.path ["u8"] [])])]).2 =
      [FnArg.receiver (some (some ⟨"life1"⟩)) false,
       FnArg.typed (.identP false false "x")
         (.ref (some ⟨"a"⟩) false (.path ["u8"] [])),
       FnArg.typed (.identP false false "v")
         (.path ["Vec"] [.ref (some ⟨"life0"⟩) false (.path ["u8"] [])])] ∧
    (collect_inputs CollectLifetimes.new
      [FnArg.receiver (some (some ⟨"life1"⟩)) false,
       FnArg.typed (.identP false false "x")
         (.ref (some ⟨"a"⟩) false (.path ["u8"] [])),
       FnArg.typed (.identP false false "v")
         (.path ["Vec"] [.ref (some ⟨"life0"⟩) false (.path ["u8"] [])])]).1.elided = [] :=
  C9_claim
    [FnArg.receiver (some (some ⟨"life1"⟩)) false,
     FnArg.typed (.identP false false "x")
       (.ref (some ⟨"a"⟩) false (.path ["u8"] [])),
     FnArg.typed (.identP false false "v")
       (.path ["Vec"] [.ref (some ⟨"life0"⟩) false (.path ["u8"] [])])]
    (by rfl)

/-! ## Signature lowering (`src/minitrace-macro/src/trace/lower/signature.rs`) -/

/-- `positional_arg` (signature.rs lines 174-176): the fresh identifier for
the `i`-th argument when its pattern is not a plain identifier. -/
def positional_arg (i : Nat) : String := "__arg" ++ toString i

mutual
/-- `mut_pat` / `HasMutPat` (signature.rs lines 198-202 and 259-269):
whether the pattern binds mutably anywhere. -/
def mut_pat : Pat → Bool
  | .identP _ m _ => m
  | .tupleP elems => mut_pats elems
  | .wildP => false

def mut_pats : List Pat → Bool
  | [] => false
  | p :: ps => mut_pat p || mut_pats ps
end

/-- The parameter-pattern normalization loop of `transform_sig`
(signature.rs lines 123-140): reference receivers are untouched, by-value
receivers lose their mutability marker, identifier patterns drop their
by-reference marker (the mutability reset is commented out in the source),
and any other pattern is replaced by a positional identifier carrying the
pattern's mutability. -/
def normalize_arg (i : Nat) : FnArg → FnArg
  | .receiver (some r) m => .receiver (some r) m
  | .receiver none _ => .receiver none false
  | .typed (.identP _ m name) ty => .typed (.identP false m name) ty
  | .typed pat ty => .typed (.identP false (mut_pat pat) (positional_arg i)) ty

def normalize_inputs_from (i : Nat) : List FnArg → List FnArg
  | [] => []
  | a :: rest => normalize_arg i a :: normalize_inputs_from (i + 1) rest

def normalize_inputs (inputs : List FnArg) : List FnArg :=
  normalize_inputs_from 0 inputs

/-- The outlives bound pushed for each original generic parameter
(signature.rs lines 56-74). -/
def generic_pred : GenericParam → Option WherePred
  | .typeP i => some (.tyOutlivesTracer i)
  | .lifetimeP lt => some (.ltOutlivesTracer lt)
  | .constP _ => none

/-- The synthesized tracer lifetime `'minitrace`. -/
def tracer_lt : Lifetime := ⟨"minitrace"⟩

/-- The `Send`/`Sync` choice for the receiver bound (signature.rs lines
96-113): `Sync` for a shared-reference receiver (also in its
`self: &Self`-typed spelling), `Send` otherwise. -/
def receiver_bound (inputs : List FnArg) : String :=
  match inputs.head? with
  | some (.receiver (some _) false) => "Sync"
  | some (.typed pat ty) =>
    match pat, ty with
    | .identP _ _ nm, .ref _ false _ => if nm = "self" then "Sync" else "Send"
    | _, _ => "Send"
  | _ => "Send"

/-- `transform_sig` (signature.rs lines 34-151).  The source takes the
`async` token with `.unwrap()` — it is only ever invoked on asynchronous
signatures (lower.rs lines 112-115) — and clears it; token bookkeeping
(`lt_token`/`gt_token`, spans) carries no logic and is dropped.  Inserting
the minted lifetimes at successive indices `0, 1, …` prepends them, in mint
order, before the original generic parameters; the tracer lifetime is then
inserted at index 0. -/
def transform_sig (sig : Signature) (has_self : Bool) (is_local : Bool) :
    Signature :=
  let ret : Ty :=
    match sig.output with
    | none => Ty.unit
    | some t => t
  let collected := collect_inputs CollectLifetimes.new sig.inputs
  let st := collected.1
  let inputs1 := collected.2
  let preds1 := sig.generic_params.filterMap generic_pred
  let elided_preds := st.elided.map WherePred.ltOutlivesTracer
  let self_preds : List WherePred :=
    if has_self then
      [if is_local then WherePred.selfTracer none
       else WherePred.selfTracer (some (receiver_bound inputs1))]
    else []
  { sig with
    asyncness := false
    inputs := normalize_inputs inputs1
    generic_params :=
      GenericParam.lifetimeP tracer_lt ::
        (st.elided.map GenericParam.lifetimeP ++ sig.generic_params)
    where_clause := sig.where_clause ++ preds1 ++ elided_preds ++ self_preds
    output := some (Ty.implFuture ret (!is_local)) }

theorem arg_resolved_normalize (i : Nat) (a : FnArg) (h : arg_resolved a = true) :
    arg_resolved (normalize_arg i a) = true := by
  cases a with
  | receiver r m =>
    cases r with
    | none => simp [normalize_arg, arg_resolved]
    | some lt => simpa [normalize_arg, arg_resolved] using h
  | typed pat ty =>
    cases pat <;> simpa [normalize_arg, arg_resolved] using h

theorem inputs_resolved_normalize_from :
    ∀ (l : List FnArg) (i : Nat), inputs_resolved l = true →
      inputs_resolved (normalize_inputs_from i l) = true
  | [], _, _ => by simp [normalize_inputs_from, inputs_resolved]
  | a :: rest, i, h => by
    simp only [inputs_resolved, Bool.and_eq_true] at h
    simp [normalize_inputs_from, inputs_resolved,
      arg_resolved_normalize i a h.1, inputs_resolved_normalize_from rest (i + 1) h.2]

/-- The conjunction of properties C8 asserts of the signature lowering:
the `async` qualifier is removed; no elided reference lifetime survives in
the lowered inputs; the minted lifetimes are exactly `'life0, 'life1, …`
in order; the generic parameters are the fresh tracer lifetime first, then
the minted lifetimes, then the original parameters; the where clause gains
a tracer-outlives bound for every original type parameter, every original
(explicit) lifetime parameter, and every minted lifetime; and the return
type becomes an opaque future whose output is the original return type, or
unit if there was none. -/
def TransformSigSpec (sig : Signature) (has_self is_local : Bool) : Prop :=
  (transform_sig sig has_self is_local).asyncness = false ∧
  inputs_resolved (transform_sig sig has_self is_local).inputs = true ∧
  (collect_inputs CollectLifetimes.new sig.inputs).1.elided =
    mint_names (collect_inputs CollectLifetimes.new sig.inputs).1.elided.length ∧
  (transform_sig sig has_self is_local).generic_params =
    GenericParam.lifetimeP tracer_lt ::
      ((collect_inputs CollectLifetimes.new sig.inputs).1.elided.map
          GenericParam.lifetimeP ++ sig.generic_params) ∧
  (∀ i, GenericParam.typeP i ∈ sig.generic_params →
    WherePred.tyOutlivesTracer i ∈ (transform_sig sig has_self is_local).where_clause) ∧
  (∀ lt, GenericParam.lifetimeP lt ∈ sig.generic_params →
    WherePred.ltOutlivesTracer lt ∈ (transform_sig sig has_self is_local).where_clause) ∧
  (∀ lt, lt ∈ (collect_inputs CollectLifetimes.new sig.inputs).1.elided →
    WherePred.ltOutlivesTracer lt ∈ (transform_sig sig has_self is_local).where_clause) ∧
  (transform_sig sig has_self is_local).output =
    some (Ty.implFuture
      (match sig.output with | none => Ty.unit | some t => t) (!is_local))

/-- C8: the signature lowering satisfies all the properties listed in
`TransformSigSpec` for every asynchronous signature. -/
theorem C8_claim (sig : Signature) (has_self is_local : Bool)
    (h : sig.asyncness = true) : TransformSigSpec sig has_self is_local := by
  have hcol := collect_inputs_spec sig.inputs CollectLifetimes.new 0 (by rfl)
  obtain ⟨m, hm⟩ := hcol.1
  refine ⟨?_, ?_, ?_, ?_, ?_, ?_, ?_, ?_⟩
  · simp [transform_sig]
  · simp only [transform_sig]
    exact inputs_resolved_normalize_from _ 0 hcol.2
  · rw [hm, mint_names_length]
  · simp [transform_sig]
  · intro i hi
    simp only [transform_sig]
    refine List.mem_append.mpr (Or.inl (List.mem_append.mpr (Or.inl ?_)))
    refine List.mem_append.mpr (Or.inr ?_)
    exact List.mem_filterMap.mpr ⟨.typeP i, hi, rfl⟩
  · intro lt hlt
    simp only [transform_sig]
    refine List.mem_append.mpr (Or.inl (List.mem_append.mpr (Or.inl ?_)))
    refine List.mem_append.mpr (Or.inr ?_)
    exact List.mem_filterMap.mpr ⟨.lifetimeP lt, hlt, rfl⟩
  · intro lt hlt
    simp only [transform_sig]
    refine List.mem_append.mpr (Or.inl (List.mem_append.mpr (Or.inr ?_)))
    exact List.mem_map.mpr ⟨lt, hlt, rfl⟩
  · simp [transform_sig]

/-- An asynchronous signature exercising every clause of C8:
`async fn f<T, 'a>(&self, x: &u8, v: Vec<&'_ u8>) -> u8`. -/
def exampleAsyncSig : Signature :=
  ⟨true, "f",
   [.receiver (some none) false,
    .typed (.identP false false "x") (.ref none false (.path ["u8"] [])),
    .typed (.identP false false "v")
      (.path ["Vec"] [.ref (some ⟨"_"⟩) false (.path ["u8"] [])])],
   [.typeP "T", .lifetimeP ⟨"a"⟩], [], some (.path ["u8"] [])⟩

/-- C8, witness: the specification instantiated on `exampleAsyncSig`. -/
theorem C8_witness : TransformSigSpec exampleAsyncSig true true :=
  C8_claim exampleAsyncSig true true rfl

/-! ## Emitter (`src/minitrace-macro/src/trace/lower.rs`) -/

mutual
/-- `HasSelf`'s type traversal (signature.rs lines 271-434): a path whose
first segment is `Self` marks the signature. -/
def ty_has_self : Ty → Bool
  | .path segs args => (segs.head? == some "Self") || tys_have_self args
  | .ref _ _ elem => ty_has_self elem
  | .ltArg _ => false
  | .unit => false
  | .implFuture out _ => ty_has_self out

def tys_have_self : List Ty → Bool
  | [] => false
  | t :: ts => ty_has_self t || tys_have_self ts
end

/-- `HasSelf::visit_receiver_mut` sets the flag for any receiver. -/
def arg_has_self : FnArg → Bool
  | .receiver _ _ => true
  | .typed _ ty => ty_has_self ty

/-- `has_self_in_sig` (lower.rs lines 170-174): the `HasSelf` visitor over
the signature's inputs and return type. -/
def has_self_in_sig (sig : Signature) : Bool :=
  sig.inputs.any arg_has_self ||
    (match sig.output with
     | some t => ty_has_self t
     | none => false)

/-- The instrumented function body carried by a `Quote`: the plain
`gen_block` output, or — for a detected desugared-async body — that output
re-wrapped in `Box::pin(… { … })` (lower.rs lines 91-99). -/
inductive FuncBody where
  | plain (g : GenResult)
  | boxPin (g : GenResult)

/-- `Quote` (quotable.rs lines 276-288), restricted to the components that
carry logic (visibility and the `const`/extern qualifiers are copied
verbatim and dropped here). -/
structure Quote where
  attrs : List String
  ident : String
  gen_params : List GenericParam
  params : List FnArg
  return_type : Option Ty
  where_clause : List WherePred
  func_body : FuncBody

/-- `quote` (lower.rs lines 74-146).  The legacy desugared-async branch
aborts the process in the source (`unimplemented!("Please upgrade the crate
\x60async-trait\x60 …")`); the abort is modelled as the `error` outcome. -/
def quote (traced_item : TracedItem) : Except String Quote :=
  let input := traced_item.item_fn
  let func_body : Except String FuncBody :=
    match get_async_trait_info input.block input.sig.asyncness with
    | some info =>
      match info.kind with
      | .function _ =>
        .error "Please upgrade the crate `async-trait` to a version higher than 0.1.44"
      | .async async_block =>
        .ok (.boxPin (gen_block async_block true traced_item))
    | none => .ok (.plain (gen_block input.block input.sig.asyncness traced_item))
  match func_body with
  | .error e => .error e
  | .ok body =>
    let sig :=
      if input.sig.asyncness then
        transform_sig input.sig (has_self_in_sig input.sig) true
      else input.sig
    .ok { attrs := input.attrs, ident := sig.ident,
          gen_params := sig.generic_params, params := sig.inputs,
          return_type := sig.output, where_clause := sig.where_clause,
          func_body := body }

/-- Whether the detector classifies the function as the legacy (pre-0.1.44)
desugared-async form, whose lowering is unimplemented. -/
def is_legacy (ti : TracedItem) : Bool :=
  match get_async_trait_info ti.item_fn.block ti.item_fn.sig.asyncness with
  | some ⟨_, .function _⟩ => true
  | _ => false

def except_ok {ε α : Type} : Except ε α → Bool
  | .ok _ => true
  | .error _ => false

/-- A synchronous function in the legacy desugared-async shape:
`fn f() { async fn __f() {} Box::pin(__f()) }`. -/
def legacyFn : ItemFn :=
  .mk [] ⟨false, "f", [], [], [], none⟩
    (Block.mk
      [Stmt.itemS (.fnI (.mk [] ⟨true, "__f", [], [], [], none⟩ (Block.mk []))),
       Stmt.exprS (.call (.pathE ["Box", "pin"]) [.call (.pathE ["__f"]) []])])

/-- C5, counterexample: lowering a well-formed function recognized as the
legacy desugaring form does not complete — the source reaches
`unimplemented!` and aborts (modelled as the error outcome). -/
theorem C5_counterexample :
    quote { TracedItem.defaultItem with name := "f", item_fn := legacyFn } =
      .error "Please upgrade the crate `async-trait` to a version higher than 0.1.44" := by
  rfl

/-- C5 (amended): every pipeline stage is total on well-formed input —
with the single exception of lowering a function recognized as the legacy
desugared-async form, which deliberately aborts via `unimplemented!`.
The emitter succeeds exactly on the non-legacy inputs. -/
theorem C5_claim (ti : TracedItem) :
    except_ok (quote ti) = !(is_legacy ti) := by
  unfold quote is_legacy
  cases hinfo : get_async_trait_info ti.item_fn.block ti.item_fn.sig.asyncness with
  | none => simp [hinfo, except_ok]
  | some info =>
    obtain ⟨stmt, kind⟩ := info
    cases kind with
    | function f => simp [hinfo, except_ok]
    | async b => simp [hinfo, except_ok]
